import Mathlib

/-!
Verification of the event-propagation core of Horizon-Data-Types
(src/lib.rs, crate `game_server_architecture`).

Modelling conventions for the shallow embedding:
- the source's `f32` coordinates are modelled as exact rationals `ℚ`;
- `Uuid` is modelled as `Nat`, and the random generation `Uuid::new_v4()`
  performed inside the constructors is externalized as an explicit
  fresh-identifier argument `id`;
- `HashMap<Uuid, _>` is modelled as an association list `List (Nat × _)`
  whose order stands for the map's unspecified iteration order, with
  `mapInsert` mirroring `HashMap::insert` (replace on existing key);
- `HashSet<Uuid>` is modelled as `Finset Nat`;
- `serde_json::Value` payloads are opaque to this core and modelled as `String`;
- Rust methods taking `&mut self` are modelled by explicit state passing:
  they return the updated receiver together with the source's return value.
-/

namespace Horizon

/-- Opaque JSON payload (`serde_json::Value` in the source); the propagation
core never inspects it. -/
abbrev JsonValue := String

/-- Model of `Vector3` (src/lib.rs:17): a 3D vector with `f32` components,
modelled with exact rational components. -/
structure Vector3 where
  x : ℚ
  y : ℚ
  z : ℚ
deriving DecidableEq, Repr

/-- Model of `Vector3::new` (src/lib.rs:49). -/
def Vector3.new (x y z : ℚ) : Vector3 :=
  { x := x, y := y, z := z }

/-- Model of `GameEvent` (src/lib.rs:247). -/
structure GameEvent where
  id : Nat
  event_type : String
  position : Vector3
  radius : ℚ
  data : JsonValue
deriving DecidableEq, Repr

/-- Model of `GameEvent::new` (src/lib.rs:291): stores all arguments verbatim;
the source performs no validation of any kind (in particular none on
`radius`). The randomly generated UUID is the explicit `id` argument. -/
def GameEvent.new (id : Nat) (event_type : String) (position : Vector3)
    (radius : ℚ) (data : JsonValue) : GameEvent :=
  { id := id, event_type := event_type, position := position,
    radius := radius, data := data }

/-- Model of `SpatialPartition` (src/lib.rs:304): an axis-aligned bounding box. -/
structure SpatialPartition where
  id : Nat
  min : Vector3
  max : Vector3
deriving DecidableEq, Repr

/-- Model of `SpatialPartition::new` (src/lib.rs:338): stores the two corners
verbatim; the source performs no validation (no min ≤ max check). -/
def SpatialPartition.new (id : Nat) (min max : Vector3) : SpatialPartition :=
  { id := id, min := min, max := max }

/-- Model of `SpatialPartition::contains` (src/lib.rs:369). -/
def SpatialPartition.contains (s : SpatialPartition) (point : Vector3) : Bool :=
  point.x ≥ s.min.x && point.x ≤ s.max.x &&
  (point.y ≥ s.min.y && point.y ≤ s.max.y) &&
  (point.z ≥ s.min.z && point.z ≤ s.max.z)

/-- Model of `SpatialPartition::intersects` (src/lib.rs:408). -/
def SpatialPartition.intersects (s other : SpatialPartition) : Bool :=
  s.min.x ≤ other.max.x && s.max.x ≥ other.min.x &&
  (s.min.y ≤ other.max.y && s.max.y ≥ other.min.y) &&
  (s.min.z ≤ other.max.z && s.max.z ≥ other.min.z)

/-- Model of `GameServer` (src/lib.rs:417). -/
structure GameServer where
  id : Nat
  partition : SpatialPartition
  players : Finset Nat
  objects : Finset Nat
deriving DecidableEq

/-- Model of `GameServer::new` (src/lib.rs:453). -/
def GameServer.new (id : Nat) (partition : SpatialPartition) : GameServer :=
  { id := id, partition := partition, players := ∅, objects := ∅ }

/-- Model of `f32::min` on the rational model of coordinates: returns the
smaller argument. Kept as an explicit `if` so that concrete instances reduce
in the kernel; `ratMin_eq_min` identifies it with `min` on `ℚ`. -/
def ratMin (a b : ℚ) : ℚ :=
  if a ≤ b then a else b

/-- Model of `GameServer::process_event` (src/lib.rs:478). The source takes
`&mut self` but its body only reads `self`, so the state-passing model
returns the receiver unchanged together with the overflow boolean:
the event overflows when its origin is outside the partition, or its radius
exceeds half of the minimum of the three axis extents. -/
def GameServer.process_event (s : GameServer) (event : GameEvent) :
    GameServer × Bool :=
  (s,
    !s.partition.contains event.position ||
    decide (event.radius >
      ratMin (s.partition.max.x - s.partition.min.x)
        (ratMin (s.partition.max.y - s.partition.min.y)
          (s.partition.max.z - s.partition.min.z)) / 2))

/-- Insertion into the association-list model of `HashMap<Uuid, β>`:
mirrors `HashMap::insert`, replacing the value when the key is present
and adding a new entry otherwise. -/
def mapInsert {β : Type} (m : List (Nat × β)) (k : Nat) (v : β) :
    List (Nat × β) :=
  match m with
  | [] => [(k, v)]
  | (k', v') :: rest =>
      if k' = k then (k, v) :: rest else (k', v') :: mapInsert rest k v

/-- Lookup in the association-list model of `HashMap<Uuid, β>`
(mirrors `HashMap::get`). -/
def mapLookup {β : Type} (m : List (Nat × β)) (k : Nat) : Option β :=
  match m with
  | [] => none
  | (k', v') :: rest => if k' = k then some v' else mapLookup rest k

/-- Model of `ServerCluster` (src/lib.rs:495). -/
structure ServerCluster where
  id : Nat
  partition : SpatialPartition
  servers : List (Nat × GameServer)
deriving DecidableEq

/-- Model of `ServerCluster::new` (src/lib.rs:528). -/
def ServerCluster.new (id : Nat) (partition : SpatialPartition) : ServerCluster :=
  { id := id, partition := partition, servers := [] }

/-- Model of `ServerCluster::add_server` (src/lib.rs:562):
`self.servers.insert(server.id, server)`. -/
def ServerCluster.add_server (c : ServerCluster) (server : GameServer) :
    ServerCluster :=
  { c with servers := mapInsert c.servers server.id server }

/-- The expanded bounding box the source builds inline in
`ServerCluster::propagate_event` (src/lib.rs:610-613):
`SpatialPartition::new(position - radius, position + radius)` on each axis.
The freshly generated UUID of that throwaway partition is modelled as 0;
`intersects` never reads it. -/
def GameEvent.expandedBox (event : GameEvent) : SpatialPartition :=
  SpatialPartition.new 0
    (Vector3.new (event.position.x - event.radius)
      (event.position.y - event.radius) (event.position.z - event.radius))
    (Vector3.new (event.position.x + event.radius)
      (event.position.y + event.radius) (event.position.z + event.radius))

/-- The dispatch test of `ServerCluster::propagate_event` (src/lib.rs:609-613):
the server's partition contains the event origin, or intersects the event's
expanded bounding box. -/
def dispatchTest (server : GameServer) (event : GameEvent) : Bool :=
  server.partition.contains event.position ||
  server.partition.intersects event.expandedBox

/-- Loop body of `ServerCluster::propagate_event` (src/lib.rs:608-617):
a server passing the dispatch test is dispatched to via `process_event`
(state-passed back into the map) and its overflow is ORed into the
accumulator; other servers are passed over unchanged. -/
def propagateStep (event : GameEvent)
    (acc : List (Nat × GameServer) × Bool) (kv : Nat × GameServer) :
    List (Nat × GameServer) × Bool :=
  if dispatchTest kv.2 event then
    let p := kv.2.process_event event
    (acc.1 ++ [(kv.1, p.1)], acc.2 || p.2)
  else
    (acc.1 ++ [kv], acc.2)

/-- Model of `ServerCluster::propagate_event` (src/lib.rs:605):
walks the server map with `propagateStep`; finally the cluster-boundary
check `!self.partition.contains(&event.position)` is ORed in. -/
def ServerCluster.propagate_event (c : ServerCluster) (event : GameEvent) :
    ServerCluster × Bool :=
  let r := c.servers.foldl (propagateStep event) ([], false)
  ({ c with servers := r.1 }, r.2 || !c.partition.contains event.position)

/-- Model of `MasterServer` (src/lib.rs:625). -/
structure MasterServer where
  id : Nat
  clusters : List (Nat × ServerCluster)
deriving DecidableEq

/-- Model of `MasterServer::new` (src/lib.rs:647). -/
def MasterServer.new (id : Nat) : MasterServer :=
  { id := id, clusters := [] }

/-- Model of `MasterServer::add_cluster` (src/lib.rs:676). -/
def MasterServer.add_cluster (m : MasterServer) (cluster : ServerCluster) :
    MasterServer :=
  { m with clusters := mapInsert m.clusters cluster.id cluster }

/-- Model of `MasterServer::propagate_event` (src/lib.rs:718): calls
`cluster.propagate_event(event)` on every owned cluster unconditionally,
keeping only the updated cluster state and discarding each call's overflow
boolean; the method itself returns `()` in the source, i.e. only the
updated master state in this state-passing model. -/
def MasterServer.propagate_event (m : MasterServer) (event : GameEvent) :
    MasterServer :=
  { m with clusters :=
      m.clusters.map (fun kv => (kv.1, (kv.2.propagate_event event).1)) }

/-! Concrete fixtures used by witness theorems. -/

/-- Fixture: an axis-aligned box covering x,y,z in 0..100. -/
def boxA : SpatialPartition :=
  SpatialPartition.new 10 (Vector3.new 0 0 0) (Vector3.new 100 100 100)

/-- Fixture: the neighboring box covering x in 100..200, y,z in 0..100. -/
def boxB : SpatialPartition :=
  SpatialPartition.new 11 (Vector3.new 100 0 0) (Vector3.new 200 100 100)

/-- Fixture: a box covering the union of `boxA` and `boxB`. -/
def boxAB : SpatialPartition :=
  SpatialPartition.new 12 (Vector3.new 0 0 0) (Vector3.new 200 100 100)

/-- Fixture server over `boxA` with identifier 1. -/
def serverA : GameServer := GameServer.new 1 boxA

/-- Fixture server over `boxB` with identifier 2. -/
def serverB : GameServer := GameServer.new 2 boxB

/-- Fixture server sharing identifier 1 with `serverA` but holding a
different partition. -/
def serverA2 : GameServer := GameServer.new 1 boxB

/-- Fixture cluster owning `serverA` then `serverB` in that map order. -/
def clusterAB : ServerCluster :=
  { id := 3, partition := boxAB, servers := [(1, serverA), (2, serverB)] }

/-- Fixture cluster identical to `clusterAB` except for the map order. -/
def clusterBA : ServerCluster :=
  { id := 3, partition := boxAB, servers := [(2, serverB), (1, serverA)] }

/-- Fixture event at (50,50,50) with radius 10. -/
def eventMid : GameEvent :=
  GameEvent.new 4 "Explosion" (Vector3.new 50 50 50) 10 ""

example :
    (SpatialPartition.new 0 (Vector3.new 0 0 0)
      (Vector3.new 100 100 100)).contains (Vector3.new 50 50 50) = true := by
  decide

example :
    (SpatialPartition.new 0 (Vector3.new 0 0 0)
      (Vector3.new 100 100 100)).contains (Vector3.new 150 150 150) = false := by
  decide

example :
    ((GameServer.new 1 (SpatialPartition.new 0 (Vector3.new 0 0 0)
      (Vector3.new 100 100 100))).process_event
      (GameEvent.new 2 "Explosion" (Vector3.new 50 50 50) 10 "")).2 = false := by
  simp [GameServer.process_event, GameServer.new, SpatialPartition.new,
    SpatialPartition.contains, GameEvent.new, Vector3.new, ratMin]
  norm_num

example :
    ((GameServer.new 1 (SpatialPartition.new 0 (Vector3.new 0 0 0)
      (Vector3.new 100 100 100))).process_event
      (GameEvent.new 2 "Explosion" (Vector3.new 50 50 50) 60 "")).2 = true := by
  simp [GameServer.process_event, GameServer.new, SpatialPartition.new,
    SpatialPartition.contains, GameEvent.new, Vector3.new, ratMin]
  norm_num

/-! Helper lemmas about the association-list map model. -/

/-- Inserting twice under the same key is the same as inserting the second
value once. -/
theorem mapInsert_mapInsert {β : Type} (m : List (Nat × β)) (k : Nat) (v1 v2 : β) :
    mapInsert (mapInsert m k v1) k v2 = mapInsert m k v2 := by
  induction m with
  | nil => simp [mapInsert]
  | cons hd tl ih =>
      obtain ⟨k', v'⟩ := hd
      by_cases h : k' = k
      · simp [mapInsert, h]
      · simp [mapInsert, h, ih]

/-- Looking up the key just inserted returns the inserted value. -/
theorem mapLookup_mapInsert_self {β : Type} (m : List (Nat × β)) (k : Nat) (v : β) :
    mapLookup (mapInsert m k v) k = some v := by
  induction m with
  | nil => simp [mapInsert, mapLookup]
  | cons hd tl ih =>
      obtain ⟨k', v'⟩ := hd
      by_cases h : k' = k
      · simp [mapInsert, h, mapLookup]
      · simp [mapInsert, h, mapLookup, ih]

/-- The length of the map after an insertion does not depend on the inserted
value. -/
theorem mapInsert_length_value_irrel {β : Type} (m : List (Nat × β)) (k : Nat)
    (v1 v2 : β) : (mapInsert m k v1).length = (mapInsert m k v2).length := by
  induction m with
  | nil => simp [mapInsert]
  | cons hd tl ih =>
      obtain ⟨k', v'⟩ := hd
      by_cases h : k' = k
      · simp [mapInsert, h]
      · simp [mapInsert, h, ih]

/-- A key absent from a map occurs zero times among its entries. -/
theorem countP_eq_zero_of_not_mem_keys {β : Type} (m : List (Nat × β)) (k : Nat)
    (h : k ∉ m.map Prod.fst) :
    m.countP (fun kv => kv.1 == k) = 0 := by
  induction m with
  | nil => simp
  | cons hd tl ih =>
      simp only [List.map_cons, List.mem_cons] at h
      push_neg at h
      rw [List.countP_cons]
      simp only [ih h.2]
      have : (hd.1 == k) = false := by
        simp [h.1.symm]
      simp [this]

/-- Inserting a key into a map with duplicate-free keys leaves exactly one
entry under that key. -/
theorem countP_mapInsert_eq_one {β : Type} (m : List (Nat × β)) (k : Nat) (v : β)
    (hnd : (m.map Prod.fst).Nodup) :
    (mapInsert m k v).countP (fun kv => kv.1 == k) = 1 := by
  induction m with
  | nil => simp [mapInsert, List.countP_cons]
  | cons hd tl ih =>
      obtain ⟨k', v'⟩ := hd
      simp only [List.map_cons, List.nodup_cons] at hnd
      by_cases h : k' = k
      · subst h
        have h0 : tl.countP (fun kv => kv.1 == k') = 0 :=
          countP_eq_zero_of_not_mem_keys tl k' hnd.1
        simp [mapInsert, List.countP_cons, h0]
      · simp only [mapInsert, if_neg h]
        rw [List.countP_cons]
        have : ((k', v').1 == k) = false := by simp [h]
        simp [this, ih hnd.2]

/-! Helper lemmas about event propagation. -/

/-- The list component of one propagation step: the visited server is
appended back unchanged (dispatched or not), since `process_event` returns
its receiver unchanged. -/
theorem propagateStep_fst (event : GameEvent)
    (acc : List (Nat × GameServer) × Bool) (kv : Nat × GameServer) :
    (propagateStep event acc kv).1 = acc.1 ++ [kv] := by
  by_cases h : dispatchTest kv.2 event
  · simp [propagateStep, h, GameServer.process_event]
  · simp [propagateStep, h]

/-- Folding the propagation step over the server list reproduces the list. -/
theorem foldl_propagateStep_fst (event : GameEvent) (l : List (Nat × GameServer)) :
    ∀ acc : List (Nat × GameServer) × Bool,
      (l.foldl (propagateStep event) acc).1 = acc.1 ++ l := by
  induction l with
  | nil => intro acc; simp
  | cons kv rest ih =>
      intro acc
      rw [List.foldl_cons, ih]
      rw [propagateStep_fst]
      simp

/-- The boolean component of folding the propagation step: the accumulator
ORed with the overflow of every dispatched server. -/
theorem foldl_propagateStep_snd (event : GameEvent) (l : List (Nat × GameServer)) :
    ∀ acc : List (Nat × GameServer) × Bool,
      (l.foldl (propagateStep event) acc).2 =
        (acc.2 ||
          (l.filter (fun kv => dispatchTest kv.2 event)).any
            (fun kv => (kv.2.process_event event).2)) := by
  induction l with
  | nil => intro acc; simp
  | cons kv rest ih =>
      intro acc
      rw [List.foldl_cons, ih]
      by_cases h : dispatchTest kv.2 event
      · simp [propagateStep, h, List.filter_cons, Bool.or_assoc]
      · simp [propagateStep, h, List.filter_cons]

/-- Cluster-level propagation returns the cluster unchanged: the server walk
reproduces the server map entry for entry. -/
theorem cluster_propagate_fst (c : ServerCluster) (event : GameEvent) :
    (c.propagate_event event).1 = c := by
  simp [ServerCluster.propagate_event, foldl_propagateStep_fst]

/-- Characterization of the boolean returned by cluster-level propagation:
the OR of the overflow results of the servers passing the dispatch test, ORed
with the cluster-boundary check. -/
theorem cluster_propagate_snd (c : ServerCluster) (event : GameEvent) :
    (c.propagate_event event).2 =
      ((c.servers.filter (fun kv => dispatchTest kv.2 event)).any
        (fun kv => (kv.2.process_event event).2) ||
       !c.partition.contains event.position) := by
  simp [ServerCluster.propagate_event, foldl_propagateStep_snd]

/-- Permutation of a list leaves `List.any` unchanged. -/
theorem perm_any_eq {α : Type} {l1 l2 : List α} (h : l1.Perm l2) (f : α → Bool) :
    l1.any f = l2.any f := by
  rw [Bool.eq_iff_iff, List.any_eq_true, List.any_eq_true]
  constructor
  · rintro ⟨x, hx, hfx⟩; exact ⟨x, h.mem_iff.mp hx, hfx⟩
  · rintro ⟨x, hx, hfx⟩; exact ⟨x, h.mem_iff.mpr hx, hfx⟩

/-- The explicit minimum agrees with the lattice `min` on `ℚ`. -/
theorem ratMin_eq_min (a b : ℚ) : ratMin a b = min a b := by
  simp [ratMin, min_def]

/-- Unfolding of the containment predicate into its six inclusive
coordinate comparisons. -/
theorem contains_eq_true_iff (R : SpatialPartition) (p : Vector3) :
    R.contains p = true ↔
      (R.min.x ≤ p.x ∧ p.x ≤ R.max.x ∧
       R.min.y ≤ p.y ∧ p.y ≤ R.max.y ∧
       R.min.z ≤ p.z ∧ p.z ≤ R.max.z) := by
  simp [SpatialPartition.contains, ge_iff_le, and_assoc]

/-- Unfolding of the intersection predicate into its six inclusive
coordinate comparisons. -/
theorem intersects_eq_true_iff (A B : SpatialPartition) :
    A.intersects B = true ↔
      (A.min.x ≤ B.max.x ∧ B.min.x ≤ A.max.x ∧
       A.min.y ≤ B.max.y ∧ B.min.y ≤ A.max.y ∧
       A.min.z ≤ B.max.z ∧ B.min.z ≤ A.max.z) := by
  simp [SpatialPartition.intersects, ge_iff_le, and_assoc]

/-! Claim theorems. -/

/-- C1: `GameServer::process_event` returns true if and only if the event's
origin position is not contained in the server's partition, or the event's
radius is strictly greater than half of the minimum of the partition's three
axis extents; in particular it returns false when the origin is contained and
the radius is at most half the smallest extent. -/
theorem process_event_overflow_iff (s : GameServer) (event : GameEvent) :
    (s.process_event event).2 = true ↔
      (¬ s.partition.contains event.position = true ∨
        event.radius >
          min (s.partition.max.x - s.partition.min.x)
            (min (s.partition.max.y - s.partition.min.y)
              (s.partition.max.z - s.partition.min.z)) / 2) := by
  simp [GameServer.process_event, ratMin_eq_min]

/-- C2: `ServerCluster::propagate_event` dispatches (via `process_event`)
exactly to the owned servers whose partition contains the event origin or
intersects the expanded box origin ± radius, and returns the OR of the
dispatched servers' overflow results ORed with the cluster-boundary check. -/
theorem propagate_event_dispatch_exact (c : ServerCluster) (event : GameEvent) :
    (c.propagate_event event).2 =
      ((c.servers.filter (fun kv =>
          kv.2.partition.contains event.position ||
          kv.2.partition.intersects event.expandedBox)).any
        (fun kv => (kv.2.process_event event).2) ||
       !c.partition.contains event.position) := by
  rw [cluster_propagate_snd]
  rfl

/-- C3: `SpatialPartition::contains` returns true if and only if, on each of
the three axes, the point's coordinate lies within the partition's min and
max coordinates, boundaries included. -/
theorem contains_inclusive_bounds_iff (R : SpatialPartition) (p : Vector3) :
    R.contains p = true ↔
      (R.min.x ≤ p.x ∧ p.x ≤ R.max.x ∧
       R.min.y ≤ p.y ∧ p.y ≤ R.max.y ∧
       R.min.z ≤ p.z ∧ p.z ≤ R.max.z) :=
  contains_eq_true_iff R p

/-- C4: the boolean result of `ServerCluster::propagate_event` is invariant
under reordering of the server map: two clusters with the same partition and
the same entries in any order yield the same result. -/
theorem propagate_event_order_invariant (c1 c2 : ServerCluster)
    (event : GameEvent) (hpart : c1.partition = c2.partition)
    (hperm : c1.servers.Perm c2.servers) :
    (c1.propagate_event event).2 = (c2.propagate_event event).2 := by
  rw [cluster_propagate_snd, cluster_propagate_snd, hpart,
    perm_any_eq (hperm.filter _) _]

/-- Witness for C4 at a concrete topology: the same two servers inserted in
the two possible orders give the same propagation result. -/
theorem propagate_event_order_invariant_witness :
    clusterAB.partition = clusterBA.partition ∧
    clusterAB.servers.Perm clusterBA.servers ∧
    (clusterAB.propagate_event eventMid).2 =
      (clusterBA.propagate_event eventMid).2 :=
  ⟨rfl, List.Perm.swap _ _ _,
    propagate_event_order_invariant clusterAB clusterBA eventMid rfl
      (List.Perm.swap _ _ _)⟩

/-- C5, evaluated at the failing input: `GameEvent::new` performs no radius
validation, so constructing an event with radius -1 succeeds and yields an
event carrying a negative radius (instead of failing with `InvalidEvent` as
the specification requires). -/
theorem gameEvent_new_accepts_negative_radius :
    (GameEvent.new 0 "Explosion" (Vector3.new 0 0 0) (-1) "").radius = -1 ∧
    (GameEvent.new 0 "Explosion" (Vector3.new 0 0 0) (-1) "").radius < 0 := by
  refine ⟨rfl, ?_⟩
  show (-1 : ℚ) < 0
  norm_num

/-- C6: `MasterServer::propagate_event` invokes cluster-level propagation on
every owned cluster with no coordinator-level geometric filtering, keeps only
the (unchanged) cluster states, and discards every cluster-level overflow
boolean, so the master state is returned unchanged and no overflow signal
reaches the caller. -/
theorem master_propagate_unconditional_and_discards (m : MasterServer)
    (event : GameEvent) :
    m.propagate_event event =
      { m with clusters :=
          m.clusters.map (fun kv => (kv.1, (kv.2.propagate_event event).1)) } ∧
    m.propagate_event event = m := by
  refine ⟨rfl, ?_⟩
  have hmap : m.clusters.map
      (fun kv => (kv.1, (kv.2.propagate_event event).1)) = m.clusters := by
    have : ∀ kv : Nat × ServerCluster,
        (kv.1, (kv.2.propagate_event event).1) = kv := by
      intro kv
      rw [cluster_propagate_fst]
    simp [this]
  simp [MasterServer.propagate_event, hmap]

/-- C7: inserting two servers carrying the same identifier leaves exactly one
entry under that identifier, the second value replaces the first, and the map
length after the second insertion equals the length after the first. -/
theorem add_server_last_write_wins (c : ServerCluster) (s1 s2 : GameServer)
    (hid : s1.id = s2.id) (hnd : (c.servers.map Prod.fst).Nodup) :
    (((c.add_server s1).add_server s2).servers.countP
        (fun kv => kv.1 == s2.id) = 1) ∧
    mapLookup ((c.add_server s1).add_server s2).servers s2.id = some s2 ∧
    ((c.add_server s1).add_server s2).servers.length =
      (c.add_server s1).servers.length := by
  refine ⟨?_, ?_, ?_⟩
  · simp only [ServerCluster.add_server, hid, mapInsert_mapInsert]
    exact countP_mapInsert_eq_one c.servers s2.id s2 hnd
  · simp only [ServerCluster.add_server, hid, mapInsert_mapInsert]
    exact mapLookup_mapInsert_self _ _ _
  · simp only [ServerCluster.add_server, hid, mapInsert_mapInsert]
    exact mapInsert_length_value_irrel _ _ _ _

/-- Witness for C7 at a concrete cluster: inserting `serverA` then `serverA2`
(same identifier 1) leaves one entry under identifier 1, holding `serverA2`,
and the length is unchanged by the second insertion. -/
theorem add_server_last_write_wins_witness :
    ((((ServerCluster.new 5 boxAB).add_server serverA).add_server
        serverA2).servers.countP (fun kv => kv.1 == serverA2.id) = 1) ∧
    mapLookup (((ServerCluster.new 5 boxAB).add_server serverA).add_server
        serverA2).servers serverA2.id = some serverA2 ∧
    (((ServerCluster.new 5 boxAB).add_server serverA).add_server
        serverA2).servers.length =
      ((ServerCluster.new 5 boxAB).add_server serverA).servers.length :=
  add_server_last_write_wins (ServerCluster.new 5 boxAB) serverA serverA2 rfl
    List.nodup_nil

/-- C8 counterexample: `SpatialPartition::new` accepts unordered corners, so
the min ≤ max invariant does not hold for every pair of arguments accepted by
construction: with min corner (1,0,0) and max corner (0,0,0) the resulting
partition violates min.x ≤ max.x. -/
theorem spatialPartition_new_unordered_counterexample :
    ¬ ((SpatialPartition.new 7 (Vector3.new 1 0 0)
          (Vector3.new 0 0 0)).min.x ≤
        (SpatialPartition.new 7 (Vector3.new 1 0 0)
          (Vector3.new 0 0 0)).max.x) := by
  decide

/-- C8 amended: the constructor stores the given corners verbatim with no
validation, so the resulting partition satisfies min ≤ max componentwise
whenever the caller supplies componentwise-ordered corners; ordering is a
caller obligation, not enforced by construction. -/
theorem spatialPartition_new_ordered (id : Nat) (mn mx : Vector3)
    (h : mn.x ≤ mx.x ∧ mn.y ≤ mx.y ∧ mn.z ≤ mx.z) :
    (SpatialPartition.new id mn mx).min = mn ∧
    (SpatialPartition.new id mn mx).max = mx ∧
    ((SpatialPartition.new id mn mx).min.x ≤
        (SpatialPartition.new id mn mx).max.x ∧
      (SpatialPartition.new id mn mx).min.y ≤
        (SpatialPartition.new id mn mx).max.y ∧
      (SpatialPartition.new id mn mx).min.z ≤
        (SpatialPartition.new id mn mx).max.z) :=
  ⟨rfl, rfl, h⟩

/-- Witness for the amended C8 at concrete ordered corners. -/
theorem spatialPartition_new_ordered_witness :
    ((Vector3.new 0 0 0).x ≤ (Vector3.new 100 50 25).x ∧
     (Vector3.new 0 0 0).y ≤ (Vector3.new 100 50 25).y ∧
     (Vector3.new 0 0 0).z ≤ (Vector3.new 100 50 25).z) ∧
    ((SpatialPartition.new 7 (Vector3.new 0 0 0)
        (Vector3.new 100 50 25)).min = Vector3.new 0 0 0 ∧
     (SpatialPartition.new 7 (Vector3.new 0 0 0)
        (Vector3.new 100 50 25)).max = Vector3.new 100 50 25 ∧
     ((SpatialPartition.new 7 (Vector3.new 0 0 0)
          (Vector3.new 100 50 25)).min.x ≤
        (SpatialPartition.new 7 (Vector3.new 0 0 0)
          (Vector3.new 100 50 25)).max.x ∧
      (SpatialPartition.new 7 (Vector3.new 0 0 0)
          (Vector3.new 100 50 25)).min.y ≤
        (SpatialPartition.new 7 (Vector3.new 0 0 0)
          (Vector3.new 100 50 25)).max.y ∧
      (SpatialPartition.new 7 (Vector3.new 0 0 0)
          (Vector3.new 100 50 25)).min.z ≤
        (SpatialPartition.new 7 (Vector3.new 0 0 0)
          (Vector3.new 100 50 25)).max.z)) :=
  ⟨by decide,
    spatialPartition_new_ordered 7 (Vector3.new 0 0 0) (Vector3.new 100 50 25)
      (by decide)⟩

/-- C9: event propagation mutates no entity state: server-level processing
returns the server record (partition, players, objects) unchanged, and
cluster-level propagation returns the cluster record (partition and the whole
server map, hence every owned server with its entity sets) unchanged. -/
theorem propagation_mutates_no_state :
    (∀ (s : GameServer) (event : GameEvent), (s.process_event event).1 = s) ∧
    (∀ (c : ServerCluster) (event : GameEvent),
      (c.propagate_event event).1 = c) :=
  ⟨fun _ _ => rfl, fun c event => cluster_propagate_fst c event⟩

/-- C10: for a nonnegative radius, containment of the origin implies
intersection with the expanded box, so the containment disjunct of the
dispatch test is redundant: the test equals the plain intersection test and
the filtered (dispatched-to) server set is exactly the set whose partition
intersects the expanded box. -/
theorem contains_implies_intersects_expanded (P : SpatialPartition)
    (event : GameEvent) (hr : 0 ≤ event.radius) :
    (P.contains event.position = true →
      P.intersects event.expandedBox = true) ∧
    ((P.contains event.position || P.intersects event.expandedBox) =
      P.intersects event.expandedBox) ∧
    (∀ c : ServerCluster,
      c.servers.filter (fun kv => dispatchTest kv.2 event) =
        c.servers.filter
          (fun kv => kv.2.partition.intersects event.expandedBox)) := by
  have key : ∀ Q : SpatialPartition, Q.contains event.position = true →
      Q.intersects event.expandedBox = true := by
    intro Q hQ
    rw [contains_eq_true_iff] at hQ
    rw [intersects_eq_true_iff]
    obtain ⟨h1, h2, h3, h4, h5, h6⟩ := hQ
    simp only [GameEvent.expandedBox, SpatialPartition.new, Vector3.new]
    refine ⟨?_, ?_, ?_, ?_, ?_, ?_⟩ <;> dsimp <;> linarith
  have key2 : ∀ Q : SpatialPartition,
      (Q.contains event.position || Q.intersects event.expandedBox) =
        Q.intersects event.expandedBox := by
    intro Q
    cases hc : Q.contains event.position
    · simp
    · simp [key Q hc]
  refine ⟨key P, key2 P, ?_⟩
  intro c
  apply List.filter_congr
  intro kv _
  simp only [dispatchTest]
  exact key2 kv.2.partition

/-- Witness for C10 at a concrete partition and event with radius 10 ≥ 0. -/
theorem contains_implies_intersects_expanded_witness :
    (0 ≤ eventMid.radius) ∧
    ((boxA.contains eventMid.position = true →
        boxA.intersects eventMid.expandedBox = true) ∧
     ((boxA.contains eventMid.position || boxA.intersects eventMid.expandedBox) =
        boxA.intersects eventMid.expandedBox) ∧
     (∀ c : ServerCluster,
        c.servers.filter (fun kv => dispatchTest kv.2 eventMid) =
          c.servers.filter
            (fun kv => kv.2.partition.intersects eventMid.expandedBox))) :=
  ⟨by decide, contains_implies_intersects_expanded boxA eventMid (by decide)⟩

end Horizon
